import Mathlib

/-!
Shallow embedding of the geometric/astronomical calculation engine of
`backend/yantra_geometry.py` (classes `Vector3D`, `Ray`, `Plane`, `Cylinder`,
`AstronomicalCalculations`, `RayIntersection`, `SurfaceCoordinates`, and the
Samrat-yantra generator of `YantraGeometryEngine`), together with proofs of
the specification claims about it.

Python floats are modelled by real numbers; Python's `math.sin`, `math.cos`,
`math.asin`, `math.atan2`, `math.sqrt`, `math.tan`, `math.radians` and
`math.degrees` by the corresponding Mathlib functions on `ℝ`; `None`-returning
functions by `Option`.  Branches on real-valued comparisons use classical
decidability, mirroring the source's `if` statements literally.
-/

noncomputable section

namespace Yantra

/-- `math.atan2(y, x)` of the Python standard library, on reals
(quadrant-correct arctangent; `atan2 0 0 = 0`). -/
def atan2 (y x : ℝ) : ℝ :=
  if 0 < x then Real.arctan (y / x)
  else if x < 0 then
    (if 0 ≤ y then Real.arctan (y / x) + Real.pi else Real.arctan (y / x) - Real.pi)
  else if 0 < y then Real.pi / 2
  else if y < 0 then -(Real.pi / 2)
  else 0

/-- `math.radians`: degrees to radians. -/
def radians (d : ℝ) : ℝ := d * (Real.pi / 180)

/-- `math.degrees`: radians to degrees. -/
def degrees (r : ℝ) : ℝ := r * (180 / Real.pi)

/-- `Vector3D`: 3D vector with basic operations (dataclass of the source). -/
@[ext]
structure Vector3D where
  x : ℝ
  y : ℝ
  z : ℝ

/-- `Vector3D.__add__`. -/
instance : Add Vector3D :=
  ⟨fun a b => ⟨a.x + b.x, a.y + b.y, a.z + b.z⟩⟩

/-- `Vector3D.__sub__`. -/
instance : Sub Vector3D :=
  ⟨fun a b => ⟨a.x - b.x, a.y - b.y, a.z - b.z⟩⟩

namespace Vector3D

/-- `Vector3D.__mul__` (scalar multiplication on the right). -/
def smul (v : Vector3D) (scalar : ℝ) : Vector3D :=
  ⟨v.x * scalar, v.y * scalar, v.z * scalar⟩

/-- `Vector3D.dot`. -/
def dot (a other : Vector3D) : ℝ :=
  a.x * other.x + a.y * other.y + a.z * other.z

/-- `Vector3D.cross`. -/
def cross (a other : Vector3D) : Vector3D :=
  ⟨a.y * other.z - a.z * other.y,
   a.z * other.x - a.x * other.z,
   a.x * other.y - a.y * other.x⟩

/-- `Vector3D.magnitude`: `math.sqrt(x**2 + y**2 + z**2)`. -/
def magnitude (v : Vector3D) : ℝ :=
  Real.sqrt (v.x ^ 2 + v.y ^ 2 + v.z ^ 2)

/-- `Vector3D.normalize`: divides by the magnitude when it exceeds `1e-9`,
otherwise returns the zero vector. -/
def normalize (v : Vector3D) : Vector3D :=
  let mag := v.magnitude
  if mag > 1e-9 then ⟨v.x / mag, v.y / mag, v.z / mag⟩ else ⟨0, 0, 0⟩

end Vector3D

/-- `Ray`: origin and direction. -/
structure Ray where
  origin : Vector3D
  direction : Vector3D

/-- `Ray.point_at`: `origin + direction * t`. -/
def Ray.point_at (r : Ray) (t : ℝ) : Vector3D :=
  r.origin + r.direction.smul t

/-- `Plane`: point and normal. -/
structure Plane where
  point : Vector3D
  normal : Vector3D

/-- `Cylinder`: vertical cylinder (axis = z), base center, radius, height. -/
structure Cylinder where
  center : Vector3D
  radius : ℝ
  height : ℝ

/-- `SunPosition` dataclass. -/
structure SunPosition where
  altitude : ℝ
  azimuth : ℝ
  declination : ℝ
  hour_angle : ℝ
  unit_vector : Vector3D

/-- `YantraPoint` dataclass. -/
structure YantraPoint where
  position_3d : Vector3D
  surface_coords : ℝ × ℝ
  hour_angle : ℝ
  declination : ℝ
  shadow_length : ℝ

/-- `AstronomicalCalculations.solar_position`, translated line by line:
altitude from `sin a = sin φ sin δ + cos φ cos δ cos H` (argument clamped to
`[-1,1]`), azimuth from `atan2` of the azimuth sine/cosine (with the zenith
guard `|cos a| < 1e-9` giving azimuth `0`), and the ENU unit vector. -/
def solar_position (latitude_deg declination_deg hour_angle_deg : ℝ) : SunPosition :=
  let phi := radians latitude_deg
  let delta := radians declination_deg
  let H := radians hour_angle_deg
  let sin_altitude0 :=
    Real.sin phi * Real.sin delta + Real.cos phi * Real.cos delta * Real.cos H
  let sin_altitude := max (-1) (min 1 sin_altitude0)
  let altitude_rad := Real.arcsin sin_altitude
  let altitude_deg := degrees altitude_rad
  let cos_altitude := Real.cos altitude_rad
  let azimuth_deg :=
    if |cos_altitude| < 1e-9 then 0
    else
      let sin_azimuth := Real.cos delta * Real.sin H / cos_altitude
      let cos_azimuth :=
        (Real.sin delta - sin_altitude * Real.sin phi) / (cos_altitude * Real.cos phi)
      degrees (atan2 sin_azimuth cos_azimuth)
  let sun_vector : Vector3D :=
    ⟨cos_altitude * Real.sin (radians azimuth_deg),
     cos_altitude * Real.cos (radians azimuth_deg),
     sin_altitude⟩
  { altitude := altitude_deg
    azimuth := azimuth_deg
    declination := declination_deg
    hour_angle := hour_angle_deg
    unit_vector := sun_vector }

/-- `RayIntersection.ray_plane_intersection`:
`t = (P₀ - O)·n / (d·n)`, `None` when the ray is parallel (`|d·n| < ε`)
or `t ≤ 0`. -/
def ray_plane_intersection (ray : Ray) (plane : Plane) (epsilon : ℝ := 1e-9) :
    Option (ℝ × Vector3D) :=
  let d_dot_n := ray.direction.dot plane.normal
  if |d_dot_n| < epsilon then none
  else
    let p0_minus_o := plane.point - ray.origin
    let t := p0_minus_o.dot plane.normal / d_dot_n
    if t ≤ 0 then none
    else some (t, ray.point_at t)

/-- The tail of `ray_cylinder_intersection` once the candidate-root list
`[t for t in [t1, t2] if t > epsilon]` has been formed: Python's
`if not candidates: return None`, `t = min(candidates)`, the height clip
`0 <= z_local <= height`, and the returned pair. -/
def cylinderHit (ray : Ray) (cylinder : Cylinder) : List ℝ → Option (ℝ × Vector3D)
  | [] => none
  | t0 :: rest =>
    let t := rest.foldl min t0
    let intersection_point := ray.point_at t
    let z_local := intersection_point.z - cylinder.center.z
    if 0 ≤ z_local ∧ z_local ≤ cylinder.height then some (t, intersection_point)
    else none

/-- `RayIntersection.ray_cylinder_intersection`: quadratic in `t` for the
infinite vertical cylinder, keep roots `> ε`, take the smallest, then clip by
the height range `[0, height]` of the local z of the hit point. -/
def ray_cylinder_intersection (ray : Ray) (cylinder : Cylinder) (epsilon : ℝ := 1e-9) :
    Option (ℝ × Vector3D) :=
  let o := ray.origin - cylinder.center
  let d := ray.direction
  let a := d.x * d.x + d.y * d.y
  let b := 2 * (o.x * d.x + o.y * d.y)
  let c := o.x * o.x + o.y * o.y - cylinder.radius * cylinder.radius
  if |a| < epsilon then none
  else
    let discriminant := b * b - 4 * a * c
    if discriminant < 0 then none
    else
      let sqrt_discriminant := Real.sqrt discriminant
      let t1 := (-b - sqrt_discriminant) / (2 * a)
      let t2 := (-b + sqrt_discriminant) / (2 * a)
      cylinderHit ray cylinder
        ((if epsilon < t1 then [t1] else []) ++ (if epsilon < t2 then [t2] else []))

/-- `SurfaceCoordinates.plane_coordinate_system`: orthonormal in-plane basis
`u = normalize(n × up_hint)`, `v = normalize(n × u)`, with the up-hint switched
when `|n·up_hint| > 0.99` (to `(1,0,0)` unless `|n.x| ≥ 0.9`, then `(0,1,0)`). -/
def plane_coordinate_system (plane : Plane) (up_hint : Vector3D := ⟨0, 0, 1⟩) :
    Vector3D × Vector3D :=
  let n := plane.normal
  let hint :=
    if |n.dot up_hint| > 0.99 then
      (if |n.x| < 0.9 then (⟨1, 0, 0⟩ : Vector3D) else ⟨0, 1, 0⟩)
    else up_hint
  let u := (n.cross hint).normalize
  let v := (n.cross u).normalize
  (u, v)

/-- `SurfaceCoordinates.project_to_plane_coords`:
`(x_local, y_local) = ((X - P₀)·u, (X - P₀)·v)`. -/
def project_to_plane_coords (point : Vector3D) (plane : Plane) (u v : Vector3D) :
    ℝ × ℝ :=
  let relative_point := point - plane.point
  (relative_point.dot u, relative_point.dot v)

/-- Which dial face a Samrat shadow point was recorded on. -/
inductive Side
  | east
  | west
deriving DecidableEq

/-- The shadow ray cast in one iteration of the Samrat generator's loop:
origin at the gnomon tip `(0, 0, gnomon_height)`, direction the negation of
the sun's ENU unit vector for hour angle `(hour - 12) * 15`. -/
def samratShadowRay (latitude_deg gnomon_height decl : ℝ) (hour : ℕ) : Ray :=
  let hour_angle : ℝ := ((hour : ℝ) - 12) * 15
  let sun_pos := solar_position latitude_deg decl hour_angle
  ⟨⟨0, 0, gnomon_height⟩,
   ⟨-sun_pos.unit_vector.x, -sun_pos.unit_vector.y, -sun_pos.unit_vector.z⟩⟩

/-- The body of the Samrat generator's inner loop for one `(declination, hour)`
pair: skip when the sun is below the horizon, otherwise intersect the shadow
ray with the west dial face (sun azimuth `< 180`) or the east dial face
(otherwise) and package the hit as a `YantraPoint` tagged with its side;
`none` when nothing is recorded. -/
def samratStep (latitude_deg base_length gnomon_height decl : ℝ) (hour : ℕ) :
    Option (Side × YantraPoint) :=
  let hour_angle : ℝ := ((hour : ℝ) - 12) * 15
  let sun_pos := solar_position latitude_deg decl hour_angle
  if sun_pos.altitude ≤ 0 then none
  else
    let shadow_ray := samratShadowRay latitude_deg gnomon_height decl hour
    let east_plane : Plane := ⟨⟨base_length / 2, 0, 0⟩, ⟨-1, 0, 0⟩⟩
    let west_plane : Plane := ⟨⟨-(base_length / 2), 0, 0⟩, ⟨1, 0, 0⟩⟩
    if sun_pos.azimuth < 180 then
      match ray_plane_intersection shadow_ray west_plane with
      | none => none
      | some (t, point) =>
        let uv := plane_coordinate_system west_plane
        let local_coords := project_to_plane_coords point west_plane uv.1 uv.2
        some (Side.west, ⟨point, local_coords, hour_angle, decl, t⟩)
    else
      match ray_plane_intersection shadow_ray east_plane with
      | none => none
      | some (t, point) =>
        let uv := plane_coordinate_system east_plane
        let local_coords := project_to_plane_coords point east_plane uv.1 uv.2
        some (Side.east, ⟨point, local_coords, hour_angle, decl, t⟩)

/-- The hours iterated by the Samrat generator: `range(6, 19)`. -/
def hoursList : List ℕ := List.range' 6 13

/-- What one loop iteration contributes to a side's seasonal-curve list:
the recorded `YantraPoint` when the step recorded on that side. -/
def samratCurveEntry (latitude_deg base_length gnomon_height decl : ℝ) (side : Side)
    (hour : ℕ) : Option YantraPoint :=
  match samratStep latitude_deg base_length gnomon_height decl hour with
  | some (s, yp) => if s = side then some yp else none
  | none => none

/-- What one loop iteration contributes to a side's `hour_lines` table:
the `(hour, point)` pair when the step recorded on that side. -/
def samratHourEntry (latitude_deg base_length gnomon_height decl : ℝ) (side : Side)
    (hour : ℕ) : Option (ℕ × YantraPoint) :=
  match samratStep latitude_deg base_length gnomon_height decl hour with
  | some (s, yp) => if s = side then some (hour, yp) else none
  | none => none

/-- One season's contribution to a side's seasonal curve: the `YantraPoint`s
recorded for that side, in hour order. -/
def samratSeasonCurve (latitude_deg base_length gnomon_height decl : ℝ) (side : Side) :
    List YantraPoint :=
  hoursList.filterMap (samratCurveEntry latitude_deg base_length gnomon_height decl side)

/-- One season's contribution to a side's `hour_lines` table: the source
appends `(hour, point)` there only while processing the equinox season. -/
def samratSeasonHourLines (latitude_deg base_length gnomon_height decl : ℝ)
    (season_name : String) (side : Side) : List (ℕ × YantraPoint) :=
  if season_name = "equinox" then
    hoursList.filterMap (samratHourEntry latitude_deg base_length gnomon_height decl side)
  else []

/-- The parts of the Samrat generator's result dictionary that the claims are
about: the reported gnomon height of `construction_specs`, the `hour_lines`
tables, and the per-season `seasonal_curves` lists. -/
structure SamratOutput where
  gnomon_height : ℝ
  hour_lines_east : List (ℕ × YantraPoint)
  hour_lines_west : List (ℕ × YantraPoint)
  equinox_east : List YantraPoint
  equinox_west : List YantraPoint
  summer_solstice_east : List YantraPoint
  summer_solstice_west : List YantraPoint
  winter_solstice_east : List YantraPoint
  winter_solstice_west : List YantraPoint

/-- `YantraGeometryEngine.generate_samrat_yantra_geometry`: default gnomon
height `base_length * tan(radians(|latitude|))`; the season loop runs over
declinations `0, 23.44, -23.44` named `equinox`, `summer_solstice`,
`winter_solstice`, in that order, appending each season's points to the
seasonal curves and — during the equinox season only — to `hour_lines`. -/
def generate_samrat_yantra_geometry (latitude_deg : ℝ) (base_length : ℝ := 20)
    (gnomon_height_arg : Option ℝ := none) : SamratOutput :=
  let gnomon_height :=
    match gnomon_height_arg with
    | none => base_length * Real.tan (radians |latitude_deg|)
    | some g => g
  { gnomon_height := gnomon_height
    hour_lines_east :=
      samratSeasonHourLines latitude_deg base_length gnomon_height 0 "equinox" Side.east
        ++ samratSeasonHourLines latitude_deg base_length gnomon_height 23.44
            "summer_solstice" Side.east
        ++ samratSeasonHourLines latitude_deg base_length gnomon_height (-23.44)
            "winter_solstice" Side.east
    hour_lines_west :=
      samratSeasonHourLines latitude_deg base_length gnomon_height 0 "equinox" Side.west
        ++ samratSeasonHourLines latitude_deg base_length gnomon_height 23.44
            "summer_solstice" Side.west
        ++ samratSeasonHourLines latitude_deg base_length gnomon_height (-23.44)
            "winter_solstice" Side.west
    equinox_east := samratSeasonCurve latitude_deg base_length gnomon_height 0 Side.east
    equinox_west := samratSeasonCurve latitude_deg base_length gnomon_height 0 Side.west
    summer_solstice_east :=
      samratSeasonCurve latitude_deg base_length gnomon_height 23.44 Side.east
    summer_solstice_west :=
      samratSeasonCurve latitude_deg base_length gnomon_height 23.44 Side.west
    winter_solstice_east :=
      samratSeasonCurve latitude_deg base_length gnomon_height (-23.44) Side.east
    winter_solstice_west :=
      samratSeasonCurve latitude_deg base_length gnomon_height (-23.44) Side.west }

/-! ## Basic component lemmas for the vector algebra -/

@[simp]
theorem Vector3D.add_x (a b : Vector3D) : (a + b).x = a.x + b.x := rfl

@[simp]
theorem Vector3D.add_y (a b : Vector3D) : (a + b).y = a.y + b.y := rfl

@[simp]
theorem Vector3D.add_z (a b : Vector3D) : (a + b).z = a.z + b.z := rfl

@[simp]
theorem Vector3D.sub_x (a b : Vector3D) : (a - b).x = a.x - b.x := rfl

@[simp]
theorem Vector3D.sub_y (a b : Vector3D) : (a - b).y = a.y - b.y := rfl

@[simp]
theorem Vector3D.sub_z (a b : Vector3D) : (a - b).z = a.z - b.z := rfl

@[simp]
theorem Vector3D.smul_x (a : Vector3D) (s : ℝ) : (a.smul s).x = a.x * s := rfl

@[simp]
theorem Vector3D.smul_y (a : Vector3D) (s : ℝ) : (a.smul s).y = a.y * s := rfl

@[simp]
theorem Vector3D.smul_z (a : Vector3D) (s : ℝ) : (a.smul s).z = a.z * s := rfl

theorem Vector3D.magnitude_mk (a b c : ℝ) :
    (⟨a, b, c⟩ : Vector3D).magnitude = Real.sqrt (a ^ 2 + b ^ 2 + c ^ 2) := rfl

/-! ## C2: ray-plane intersection characterization -/

/-- C2: `ray_plane_intersection` returns `none` exactly when the ray is
parallel to the plane (`|d·n| < ε`) or the parameter
`t = (P₀ − O)·n / (d·n)` is `≤ 0`; in every other case it returns
`(t, ray.point_at t)`.  (For `0 < ε` every division the source performs has a
denominator of absolute value `≥ ε`, so no exception can be raised.) -/
theorem ray_plane_intersection_spec (ray : Ray) (plane : Plane) (epsilon : ℝ)
    (heps : 0 < epsilon) :
    (ray_plane_intersection ray plane epsilon = none ↔
      |ray.direction.dot plane.normal| < epsilon ∨
        (plane.point - ray.origin).dot plane.normal / ray.direction.dot plane.normal ≤ 0) ∧
    ray_plane_intersection ray plane epsilon =
      (if |ray.direction.dot plane.normal| < epsilon ∨
          (plane.point - ray.origin).dot plane.normal / ray.direction.dot plane.normal ≤ 0
        then none
        else some ((plane.point - ray.origin).dot plane.normal / ray.direction.dot plane.normal,
          ray.point_at
            ((plane.point - ray.origin).dot plane.normal / ray.direction.dot plane.normal))) := by
  clear heps
  unfold ray_plane_intersection
  by_cases h1 : |ray.direction.dot plane.normal| < epsilon
  · simp [h1]
  · by_cases h2 :
      (plane.point - ray.origin).dot plane.normal / ray.direction.dot plane.normal ≤ 0
    · simp [h1, h2]
    · simp [h1, h2]

/-- Witness for C2 at a concrete forward-hitting configuration. -/
theorem ray_plane_intersection_spec_witness :
    (0 : ℝ) < 1 ∧
    ((ray_plane_intersection ⟨⟨0, 0, 0⟩, ⟨1, 0, 0⟩⟩ ⟨⟨2, 0, 0⟩, ⟨1, 0, 0⟩⟩ 1 = none ↔
      |Vector3D.dot ⟨1, 0, 0⟩ ⟨1, 0, 0⟩| < 1 ∨
        Vector3D.dot ((⟨2, 0, 0⟩ : Vector3D) - ⟨0, 0, 0⟩) ⟨1, 0, 0⟩ /
          Vector3D.dot ⟨1, 0, 0⟩ ⟨1, 0, 0⟩ ≤ 0) ∧
    ray_plane_intersection ⟨⟨0, 0, 0⟩, ⟨1, 0, 0⟩⟩ ⟨⟨2, 0, 0⟩, ⟨1, 0, 0⟩⟩ 1 =
      (if |Vector3D.dot ⟨1, 0, 0⟩ ⟨1, 0, 0⟩| < 1 ∨
          Vector3D.dot ((⟨2, 0, 0⟩ : Vector3D) - ⟨0, 0, 0⟩) ⟨1, 0, 0⟩ /
            Vector3D.dot ⟨1, 0, 0⟩ ⟨1, 0, 0⟩ ≤ 0
        then none
        else some
          (Vector3D.dot ((⟨2, 0, 0⟩ : Vector3D) - ⟨0, 0, 0⟩) ⟨1, 0, 0⟩ /
            Vector3D.dot ⟨1, 0, 0⟩ ⟨1, 0, 0⟩,
          Ray.point_at ⟨⟨0, 0, 0⟩, ⟨1, 0, 0⟩⟩
            (Vector3D.dot ((⟨2, 0, 0⟩ : Vector3D) - ⟨0, 0, 0⟩) ⟨1, 0, 0⟩ /
              Vector3D.dot ⟨1, 0, 0⟩ ⟨1, 0, 0⟩)))) :=
  ⟨by norm_num,
   ray_plane_intersection_spec ⟨⟨0, 0, 0⟩, ⟨1, 0, 0⟩⟩ ⟨⟨2, 0, 0⟩, ⟨1, 0, 0⟩⟩ 1 (by norm_num)⟩

/-! ## C9: normalize never divides by a near-zero magnitude -/

/-- C9 counterexample: at the boundary vector `(1e-9, 0, 0)` the magnitude is
not below `1e-9`, yet `normalize` returns the zero vector (the source's guard
is `mag > 1e-9`, not `mag ≥ 1e-9`), so the result does not have magnitude 1. -/
theorem normalize_boundary_counterexample :
    ¬ ((⟨1e-9, 0, 0⟩ : Vector3D).magnitude < 1e-9) ∧
    Vector3D.normalize ⟨1e-9, 0, 0⟩ = ⟨0, 0, 0⟩ ∧
    (Vector3D.normalize ⟨1e-9, 0, 0⟩).magnitude ≠ 1 := by
  have hmag : (⟨1e-9, 0, 0⟩ : Vector3D).magnitude = 1e-9 := by
    unfold Vector3D.magnitude
    simp only
    rw [show ((1e-9 : ℝ) ^ 2 + 0 ^ 2 + 0 ^ 2) = (1e-9 : ℝ) ^ 2 by norm_num]
    rw [Real.sqrt_sq (by norm_num)]
  have hnorm : Vector3D.normalize ⟨1e-9, 0, 0⟩ = ⟨0, 0, 0⟩ := by
    unfold Vector3D.normalize
    rw [if_neg]
    rw [hmag]
    simp
  refine ⟨by rw [hmag]; simp, hnorm, ?_⟩
  rw [hnorm]
  unfold Vector3D.magnitude
  simp only
  rw [show ((0 : ℝ) ^ 2 + 0 ^ 2 + 0 ^ 2) = 0 by norm_num, Real.sqrt_zero]
  norm_num

/-- C9 (amended): `normalize` returns the zero vector whenever the magnitude
is at most `1e-9` and a vector of magnitude exactly 1 whenever the magnitude
exceeds `1e-9`; the division branch is taken only in the latter case. -/
theorem normalize_spec (v : Vector3D) :
    (v.magnitude ≤ 1e-9 → v.normalize = ⟨0, 0, 0⟩) ∧
    (1e-9 < v.magnitude → (v.normalize).magnitude = 1) := by
  constructor
  · intro h
    unfold Vector3D.normalize
    rw [if_neg (by simpa using not_lt.mpr h)]
  · intro h
    have hm0 : 0 < v.magnitude := lt_trans (by norm_num) h
    have hsq : v.x ^ 2 + v.y ^ 2 + v.z ^ 2 = v.magnitude ^ 2 :=
      (Real.sq_sqrt (by positivity)).symm
    unfold Vector3D.normalize
    rw [if_pos (by simpa using h), Vector3D.magnitude_mk]
    rw [show (v.x / v.magnitude) ^ 2 + (v.y / v.magnitude) ^ 2 + (v.z / v.magnitude) ^ 2 =
        (v.x ^ 2 + v.y ^ 2 + v.z ^ 2) / v.magnitude ^ 2 by ring]
    rw [hsq, div_self (by positivity), Real.sqrt_one]

/-- Witness for C9's amended theorem at the vector `(2, 0, 0)`. -/
theorem normalize_spec_witness :
    1e-9 < (⟨2, 0, 0⟩ : Vector3D).magnitude ∧
    (Vector3D.normalize ⟨2, 0, 0⟩).magnitude = 1 := by
  have hmag : (⟨2, 0, 0⟩ : Vector3D).magnitude = 2 := by
    unfold Vector3D.magnitude
    simp only
    rw [show ((2 : ℝ) ^ 2 + 0 ^ 2 + 0 ^ 2) = (2 : ℝ) ^ 2 by norm_num]
    rw [Real.sqrt_sq (by norm_num)]
  have h : 1e-9 < (⟨2, 0, 0⟩ : Vector3D).magnitude := by rw [hmag]; norm_num
  exact ⟨h, (normalize_spec ⟨2, 0, 0⟩).2 h⟩

/-! ## C8: the solar unit vector has magnitude 1 -/

/-- The ENU vector `(cos(arcsin s)·sin A, cos(arcsin s)·cos A, s)` is a unit
vector for any clamped `s ∈ [-1, 1]` and any angle `A`. -/
theorem enu_vector_magnitude (s A : ℝ) (h1 : -1 ≤ s) (h2 : s ≤ 1) :
    Real.sqrt ((Real.cos (Real.arcsin s) * Real.sin A) ^ 2 +
      (Real.cos (Real.arcsin s) * Real.cos A) ^ 2 + s ^ 2) = 1 := by
  have hs2 : (0 : ℝ) ≤ 1 - s ^ 2 := by nlinarith
  have hc : Real.cos (Real.arcsin s) ^ 2 = 1 - s ^ 2 := by
    rw [Real.cos_arcsin, Real.sq_sqrt hs2]
  have harg : (Real.cos (Real.arcsin s) * Real.sin A) ^ 2 +
      (Real.cos (Real.arcsin s) * Real.cos A) ^ 2 + s ^ 2 = 1 := by
    have hpy : Real.sin A ^ 2 + Real.cos A ^ 2 = 1 := Real.sin_sq_add_cos_sq A
    nlinarith [hc, hpy]
  rw [harg, Real.sqrt_one]

/-- C8: for every latitude, declination and hour angle, the `unit_vector`
field of the `SunPosition` returned by `solar_position` has magnitude 1
(within `1e-6`; in exact real arithmetic it is exactly 1). -/
theorem solar_position_unit_vector_norm
    (latitude_deg declination_deg hour_angle_deg : ℝ) :
    |((solar_position latitude_deg declination_deg hour_angle_deg).unit_vector).magnitude
      - 1| ≤ 1e-6 := by
  have key :
      ((solar_position latitude_deg declination_deg hour_angle_deg).unit_vector).magnitude
        = 1 := by
    unfold solar_position Vector3D.magnitude
    simp only
    apply enu_vector_magnitude
    · exact le_max_left _ _
    · exact max_le (by norm_num) (min_le_left _ _)
  rw [key]
  norm_num

/-! ## C1: azimuth range of `solar_position` -/

/-- `atan2` always lands in `(-π, π]`. -/
theorem atan2_mem_Ioc (y x : ℝ) : -Real.pi < atan2 y x ∧ atan2 y x ≤ Real.pi := by
  have hpi := Real.pi_pos
  have hlt := Real.arctan_lt_pi_div_two (y / x)
  have hgt := Real.neg_pi_div_two_lt_arctan (y / x)
  unfold atan2
  by_cases hx : 0 < x
  · rw [if_pos hx]
    constructor <;> nlinarith
  · rw [if_neg hx]
    by_cases hx2 : x < 0
    · rw [if_pos hx2]
      by_cases hy : 0 ≤ y
      · rw [if_pos hy]
        have harg : y / x ≤ 0 := div_nonpos_of_nonneg_of_nonpos hy (le_of_lt hx2)
        have hle : Real.arctan (y / x) ≤ 0 := by
          have h := Real.arctan_strictMono.monotone harg
          rwa [Real.arctan_zero] at h
        constructor <;> nlinarith
      · rw [if_neg hy]
        have harg : 0 < y / x := div_pos_iff.mpr (Or.inr ⟨lt_of_not_le hy, hx2⟩)
        have hge : 0 < Real.arctan (y / x) := by
          have h := Real.arctan_strictMono harg
          rwa [Real.arctan_zero] at h
        constructor <;> nlinarith
    · rw [if_neg hx2]
      by_cases hy1 : 0 < y
      · rw [if_pos hy1]
        constructor <;> nlinarith
      · rw [if_neg hy1]
        by_cases hy2 : y < 0
        · rw [if_pos hy2]
          constructor <;> nlinarith
        · rw [if_neg hy2]
          constructor <;> nlinarith

/-- `degrees ∘ atan2` always lands in `(-180, 180]`. -/
theorem degrees_atan2_bounds (y x : ℝ) :
    -180 < degrees (atan2 y x) ∧ degrees (atan2 y x) ≤ 180 := by
  obtain ⟨h1, h2⟩ := atan2_mem_Ioc y x
  have hpi := Real.pi_pos
  have hpos : (0 : ℝ) < 180 / Real.pi := by positivity
  have e2 : Real.pi * (180 / Real.pi) = 180 := by
    field_simp
  have e1 : -Real.pi * (180 / Real.pi) = -180 := by
    rw [neg_mul, e2]
  have b1 := mul_lt_mul_of_pos_right h1 hpos
  have b2 := mul_le_mul_of_nonneg_right h2 (le_of_lt hpos)
  rw [e1] at b1
  rw [e2] at b2
  unfold degrees
  exact ⟨b1, b2⟩

/-- C1 counterexample: at latitude 0, declination 0, hour angle −90 the
azimuth returned by `solar_position` is −90, which does not lie in `[0, 360)`:
the source never normalizes the `atan2` result into `[0, 360)`. -/
theorem solar_position_azimuth_not_normalized :
    (solar_position 0 0 (-90)).azimuth = -90 ∧
    ¬ (0 ≤ (solar_position 0 0 (-90)).azimuth ∧
        (solar_position 0 0 (-90)).azimuth < 360) := by
  have hpi := Real.pi_pos
  have h0 : radians 0 = 0 := by
    unfold radians
    ring
  have hH : radians (-90) = -(Real.pi / 2) := by
    unfold radians
    ring
  have key : (solar_position 0 0 (-90)).azimuth = -90 := by
    unfold solar_position
    simp only [h0, hH, Real.sin_zero, Real.cos_zero, Real.sin_neg, Real.cos_neg,
      Real.sin_pi_div_two, Real.cos_pi_div_two]
    rw [show (0 : ℝ) * 0 + 1 * 1 * 0 = 0 by ring]
    rw [show max (-1 : ℝ) (min 1 0) = 0 by norm_num]
    rw [Real.arcsin_zero, Real.cos_zero]
    rw [if_neg (by norm_num)]
    rw [show (1 : ℝ) * -1 / 1 = -1 by ring,
      show ((0 : ℝ) - 0 * 0) / (1 * 1) = 0 by ring]
    unfold atan2
    rw [if_neg (by norm_num), if_neg (by norm_num), if_neg (by norm_num),
      if_pos (by norm_num)]
    unfold degrees
    field_simp
    ring
  refine ⟨key, ?_⟩
  rw [key]
  intro h
  exact absurd h.1 (by norm_num)

/-- C1 (amended): for every latitude, declination and hour angle the azimuth
field of `solar_position` lies in `(-180, 180]` (the range of `atan2` in
degrees; `0` in the degenerate zenith case) — not in `[0, 360)` as claimed,
since the source applies no normalization to the `atan2` result. -/
theorem solar_position_azimuth_range (latitude_deg declination_deg hour_angle_deg : ℝ) :
    -180 < (solar_position latitude_deg declination_deg hour_angle_deg).azimuth ∧
    (solar_position latitude_deg declination_deg hour_angle_deg).azimuth ≤ 180 := by
  unfold solar_position
  simp only
  split
  · exact ⟨by norm_num, by norm_num⟩
  · exact degrees_atan2_bounds _ _

/-! ## Vector algebra lemmas for the plane coordinate system -/

theorem Vector3D.dot_comm (a b : Vector3D) : a.dot b = b.dot a := by
  simp only [Vector3D.dot]
  ring

theorem Vector3D.magnitude_eq_sqrt_dot (v : Vector3D) :
    v.magnitude = Real.sqrt (v.dot v) := by
  unfold Vector3D.magnitude Vector3D.dot
  congr 1
  ring

theorem Vector3D.dot_self_eq (v : Vector3D) : v.dot v = v.magnitude ^ 2 := by
  rw [Vector3D.magnitude_eq_sqrt_dot, Real.sq_sqrt]
  unfold Vector3D.dot
  nlinarith [sq_nonneg v.x, sq_nonneg v.y, sq_nonneg v.z]

theorem Vector3D.cross_dot_left (a b : Vector3D) : (a.cross b).dot a = 0 := by
  simp only [Vector3D.cross, Vector3D.dot]
  ring

theorem Vector3D.cross_dot_right (a b : Vector3D) : (a.cross b).dot b = 0 := by
  simp only [Vector3D.cross, Vector3D.dot]
  ring

/-- Lagrange identity: `|a × b|² = |a|²|b|² − (a·b)²`. -/
theorem Vector3D.cross_dot_self_sq (a b : Vector3D) :
    (a.cross b).dot (a.cross b) = a.dot a * b.dot b - (a.dot b) ^ 2 := by
  simp only [Vector3D.cross, Vector3D.dot]
  ring

theorem Vector3D.smul_dot (a : Vector3D) (s : ℝ) (b : Vector3D) :
    (a.smul s).dot b = s * (a.dot b) := by
  simp only [Vector3D.smul, Vector3D.dot]
  ring

theorem Vector3D.smul_one (v : Vector3D) : v.smul 1 = v := by
  ext <;> simp

theorem Vector3D.normalize_eq_smul (v : Vector3D) (h : 1e-9 < v.magnitude) :
    v.normalize = v.smul (1 / v.magnitude) := by
  unfold Vector3D.normalize
  rw [if_pos (by simpa using h)]
  ext <;> simp <;> ring

/-- Orthonormal expansion: for a unit normal `n`, a unit in-plane vector `u`
orthogonal to it, and any `d` orthogonal to `n`, decomposing `d` along `u` and
`n × u` recovers `d`. -/
theorem ortho_expansion (n u d : Vector3D) (hn : n.dot n = 1) (hu : u.dot u = 1)
    (hnu : n.dot u = 0) (hdn : d.dot n = 0) :
    u.smul (d.dot u) + (n.cross u).smul (d.dot (n.cross u)) = d := by
  simp only [Vector3D.dot, Vector3D.cross] at hn hu hnu hdn
  ext
  · simp only [Vector3D.add_x, Vector3D.smul_x, Vector3D.dot, Vector3D.cross]
    linear_combination (d.x * (n.y * n.y + n.z * n.z) - d.y * n.x * n.y - d.z * n.x * n.z) * hu +
      (d.x * (1 - u.x * u.x) - d.y * u.x * u.y - d.z * u.x * u.z) * hn +
      (d.x * (n.x * u.x - n.y * u.y - n.z * u.z) + d.y * (n.x * u.y + n.y * u.x) +
        d.z * (n.x * u.z + n.z * u.x)) * hnu +
      (-n.x) * hdn
  · simp only [Vector3D.add_y, Vector3D.smul_y, Vector3D.dot, Vector3D.cross]
    linear_combination (d.y * (n.z * n.z + n.x * n.x) - d.z * n.y * n.z - d.x * n.y * n.x) * hu +
      (d.y * (1 - u.y * u.y) - d.z * u.y * u.z - d.x * u.y * u.x) * hn +
      (d.y * (n.y * u.y - n.z * u.z - n.x * u.x) + d.z * (n.y * u.z + n.z * u.y) +
        d.x * (n.y * u.x + n.x * u.y)) * hnu +
      (-n.y) * hdn
  · simp only [Vector3D.add_z, Vector3D.smul_z, Vector3D.dot, Vector3D.cross]
    linear_combination (d.z * (n.x * n.x + n.y * n.y) - d.x * n.z * n.x - d.y * n.z * n.y) * hu +
      (d.z * (1 - u.z * u.z) - d.x * u.z * u.x - d.y * u.z * u.y) * hn +
      (d.z * (n.z * u.z - n.x * u.x - n.y * u.y) + d.x * (n.z * u.x + n.x * u.z) +
        d.y * (n.z * u.y + n.y * u.z)) * hnu +
      (-n.z) * hdn

/-- Shared facts about `u = normalize (n × h)` and `v = normalize (n × u)`
once the cross product is known to have magnitude above the `1e-9` guard. -/
theorem basis_props_of_mag (n h : Vector3D) (hn2 : n.dot n = 1)
    (hw : 1e-9 < (n.cross h).magnitude) :
    (((n.cross h).normalize).dot ((n.cross h).normalize) = 1) ∧
    ((n.cross ((n.cross h).normalize)).normalize = n.cross ((n.cross h).normalize)) ∧
    (((n.cross h).normalize).dot n = 0) := by
  have hu1 : ((n.cross h).normalize).magnitude = 1 := (normalize_spec _).2 hw
  have huu : ((n.cross h).normalize).dot ((n.cross h).normalize) = 1 := by
    rw [Vector3D.dot_self_eq, hu1]
    norm_num
  have hun : ((n.cross h).normalize).dot n = 0 := by
    rw [Vector3D.normalize_eq_smul _ hw, Vector3D.smul_dot, Vector3D.cross_dot_left]
    ring
  refine ⟨huu, ?_, hun⟩
  have hnu : n.dot ((n.cross h).normalize) = 0 := by
    rw [Vector3D.dot_comm]
    exact hun
  have hvv : (n.cross ((n.cross h).normalize)).dot (n.cross ((n.cross h).normalize)) = 1 := by
    rw [Vector3D.cross_dot_self_sq, hn2, huu, hnu]
    ring
  have hvmag : (n.cross ((n.cross h).normalize)).magnitude = 1 := by
    rw [Vector3D.magnitude_eq_sqrt_dot, hvv, Real.sqrt_one]
  rw [Vector3D.normalize_eq_smul _ (by rw [hvmag]; norm_num), hvmag,
    show (1 : ℝ) / 1 = 1 by norm_num, Vector3D.smul_one]

/-- For a unit normal, the hint selected by `plane_coordinate_system` always
gives a cross product safely above the `normalize` guard. -/
theorem plane_basis_core (plane : Plane) (hn : plane.normal.magnitude = 1) :
    (((plane_coordinate_system plane).1).dot ((plane_coordinate_system plane).1) = 1) ∧
    ((plane_coordinate_system plane).2 =
      plane.normal.cross ((plane_coordinate_system plane).1)) ∧
    (((plane_coordinate_system plane).1).dot plane.normal = 0) := by
  have hn2 : plane.normal.dot plane.normal = 1 := by
    rw [Vector3D.dot_self_eq, hn]
    norm_num
  have hnexp : plane.normal.x * plane.normal.x + plane.normal.y * plane.normal.y +
      plane.normal.z * plane.normal.z = 1 := hn2
  have hdz : plane.normal.dot ⟨0, 0, 1⟩ = plane.normal.z := by
    simp [Vector3D.dot]
  have hdx : plane.normal.dot ⟨1, 0, 0⟩ = plane.normal.x := by
    simp [Vector3D.dot]
  have hdy : plane.normal.dot ⟨0, 1, 0⟩ = plane.normal.y := by
    simp [Vector3D.dot]
  have hone : ∀ w : Vector3D, w.dot w = 1 →
      (1e-18 : ℝ) < plane.normal.dot plane.normal * w.dot w - (plane.normal.dot w) ^ 2 →
      1e-9 < (plane.normal.cross w).magnitude := by
    intro w _ hgt
    rw [Vector3D.magnitude_eq_sqrt_dot, Real.lt_sqrt (by norm_num),
      Vector3D.cross_dot_self_sq]
    nlinarith [hgt]
  unfold plane_coordinate_system
  simp only
  by_cases hg : |plane.normal.dot ⟨0, 0, 1⟩| > 0.99
  · rw [if_pos hg]
    by_cases hx : |plane.normal.x| < 0.9
    · rw [if_pos hx]
      apply basis_props_of_mag _ _ hn2
      apply hone ⟨1, 0, 0⟩ (by simp [Vector3D.dot])
      rw [hn2, hdx, show Vector3D.dot (⟨1, 0, 0⟩ : Vector3D) ⟨1, 0, 0⟩ = 1 from by
        simp [Vector3D.dot]]
      have habs := abs_lt.mp hx
      nlinarith [habs.1, habs.2]
    · exfalso
      rw [hdz] at hg
      have hx' : (0.9 : ℝ) ≤ |plane.normal.x| := le_of_not_lt hx
      have h1 : (0.9 : ℝ) * 0.9 ≤ |plane.normal.x| * |plane.normal.x| :=
        mul_self_le_mul_self (by norm_num) hx'
      have h2 : (0.99 : ℝ) * 0.99 < |plane.normal.z| * |plane.normal.z| :=
        mul_self_lt_mul_self (by norm_num) hg
      nlinarith [sq_abs plane.normal.x, sq_abs plane.normal.z,
        sq_nonneg plane.normal.y, h1, h2, hnexp]
  · rw [if_neg hg]
    apply basis_props_of_mag _ _ hn2
    apply hone ⟨0, 0, 1⟩ (by simp [Vector3D.dot])
    rw [hn2, hdz, show Vector3D.dot (⟨0, 0, 1⟩ : Vector3D) ⟨0, 0, 1⟩ = 1 from by
      simp [Vector3D.dot]]
    rw [hdz] at hg
    have hzle : |plane.normal.z| ≤ 0.99 := le_of_not_lt hg
    have h2 : |plane.normal.z| * |plane.normal.z| ≤ (0.99 : ℝ) * 0.99 :=
      mul_self_le_mul_self (abs_nonneg _) hzle
    nlinarith [sq_abs plane.normal.z, h2]

/-! ## C7: orthonormality of the plane basis -/

/-- C7: for every plane whose normal is a unit vector, the basis `(u, v)`
returned by `plane_coordinate_system` satisfies `|u| = 1`, `|v| = 1`,
`u·v = 0`, `u·n = 0` and `v·n = 0` (exactly, in real arithmetic), covering
both hint branches — in particular axis-aligned normals, for which the
up-hint switching branch is taken. -/
theorem plane_coordinate_system_orthonormal (plane : Plane)
    (hn : plane.normal.magnitude = 1) :
    ((plane_coordinate_system plane).1).magnitude = 1 ∧
    ((plane_coordinate_system plane).2).magnitude = 1 ∧
    ((plane_coordinate_system plane).1).dot ((plane_coordinate_system plane).2) = 0 ∧
    ((plane_coordinate_system plane).1).dot plane.normal = 0 ∧
    ((plane_coordinate_system plane).2).dot plane.normal = 0 := by
  obtain ⟨huu, hv, hun⟩ := plane_basis_core plane hn
  have hn2 : plane.normal.dot plane.normal = 1 := by
    rw [Vector3D.dot_self_eq, hn]
    norm_num
  have hnu : plane.normal.dot ((plane_coordinate_system plane).1) = 0 := by
    rw [Vector3D.dot_comm]
    exact hun
  have hvv : ((plane_coordinate_system plane).2).dot ((plane_coordinate_system plane).2)
      = 1 := by
    rw [hv, Vector3D.cross_dot_self_sq, hn2, huu, hnu]
    ring
  refine ⟨?_, ?_, ?_, hun, ?_⟩
  · rw [Vector3D.magnitude_eq_sqrt_dot, huu, Real.sqrt_one]
  · rw [Vector3D.magnitude_eq_sqrt_dot, hvv, Real.sqrt_one]
  · rw [hv, Vector3D.dot_comm, Vector3D.cross_dot_right]
  · rw [hv, Vector3D.cross_dot_left]

/-- Witness for C7 at the axis-aligned normal `(0,0,1)` (hint-switch branch). -/
theorem plane_coordinate_system_orthonormal_witness :
    ((⟨⟨0, 0, 0⟩, ⟨0, 0, 1⟩⟩ : Plane).normal.magnitude = 1) ∧
    (((plane_coordinate_system ⟨⟨0, 0, 0⟩, ⟨0, 0, 1⟩⟩).1).magnitude = 1 ∧
     ((plane_coordinate_system ⟨⟨0, 0, 0⟩, ⟨0, 0, 1⟩⟩).2).magnitude = 1 ∧
     ((plane_coordinate_system ⟨⟨0, 0, 0⟩, ⟨0, 0, 1⟩⟩).1).dot
        ((plane_coordinate_system ⟨⟨0, 0, 0⟩, ⟨0, 0, 1⟩⟩).2) = 0 ∧
     ((plane_coordinate_system ⟨⟨0, 0, 0⟩, ⟨0, 0, 1⟩⟩).1).dot
        (⟨⟨0, 0, 0⟩, ⟨0, 0, 1⟩⟩ : Plane).normal = 0 ∧
     ((plane_coordinate_system ⟨⟨0, 0, 0⟩, ⟨0, 0, 1⟩⟩).2).dot
        (⟨⟨0, 0, 0⟩, ⟨0, 0, 1⟩⟩ : Plane).normal = 0) := by
  have hmag : (⟨⟨0, 0, 0⟩, ⟨0, 0, 1⟩⟩ : Plane).normal.magnitude = 1 := by
    rw [show (⟨⟨0, 0, 0⟩, ⟨0, 0, 1⟩⟩ : Plane).normal = ⟨0, 0, 1⟩ from rfl,
      Vector3D.magnitude_mk, show ((0 : ℝ) ^ 2 + 0 ^ 2 + 1 ^ 2) = 1 by norm_num,
      Real.sqrt_one]
  exact ⟨hmag, plane_coordinate_system_orthonormal _ hmag⟩

/-! ## C6: round-trip through the plane's local frame -/

/-- C6: for a plane with unit normal and any point lying on the plane,
projecting into the `(u, v)` frame and reconstructing
`plane.point + u·x_local + v·y_local` recovers the point exactly. -/
theorem plane_projection_roundtrip (plane : Plane) (point : Vector3D)
    (hn : plane.normal.magnitude = 1)
    (hp : (point - plane.point).dot plane.normal = 0) :
    plane.point +
      ((plane_coordinate_system plane).1).smul
        (project_to_plane_coords point plane (plane_coordinate_system plane).1
          (plane_coordinate_system plane).2).1 +
      ((plane_coordinate_system plane).2).smul
        (project_to_plane_coords point plane (plane_coordinate_system plane).1
          (plane_coordinate_system plane).2).2 = point := by
  obtain ⟨huu, hv, hun⟩ := plane_basis_core plane hn
  have hn2 : plane.normal.dot plane.normal = 1 := by
    rw [Vector3D.dot_self_eq, hn]
    norm_num
  have hnu : plane.normal.dot ((plane_coordinate_system plane).1) = 0 := by
    rw [Vector3D.dot_comm]
    exact hun
  have key := ortho_expansion plane.normal ((plane_coordinate_system plane).1)
    (point - plane.point) hn2 huu hnu hp
  unfold project_to_plane_coords
  simp only
  rw [hv]
  ext
  · have kx := congrArg Vector3D.x key
    simp only [Vector3D.add_x, Vector3D.sub_x] at kx ⊢
    linarith [kx]
  · have ky := congrArg Vector3D.y key
    simp only [Vector3D.add_y, Vector3D.sub_y] at ky ⊢
    linarith [ky]
  · have kz := congrArg Vector3D.z key
    simp only [Vector3D.add_z, Vector3D.sub_z] at kz ⊢
    linarith [kz]

/-- Witness for C6: plane `z = 3` with unit normal `(0,0,1)` and the on-plane
point `(4, 5, 3)`. -/
theorem plane_projection_roundtrip_witness :
    ((⟨⟨1, 2, 3⟩, ⟨0, 0, 1⟩⟩ : Plane).normal.magnitude = 1) ∧
    (((⟨4, 5, 3⟩ : Vector3D) - (⟨⟨1, 2, 3⟩, ⟨0, 0, 1⟩⟩ : Plane).point).dot
        (⟨⟨1, 2, 3⟩, ⟨0, 0, 1⟩⟩ : Plane).normal = 0) ∧
    ((⟨⟨1, 2, 3⟩, ⟨0, 0, 1⟩⟩ : Plane).point +
      ((plane_coordinate_system ⟨⟨1, 2, 3⟩, ⟨0, 0, 1⟩⟩).1).smul
        (project_to_plane_coords ⟨4, 5, 3⟩ ⟨⟨1, 2, 3⟩, ⟨0, 0, 1⟩⟩
          (plane_coordinate_system ⟨⟨1, 2, 3⟩, ⟨0, 0, 1⟩⟩).1
          (plane_coordinate_system ⟨⟨1, 2, 3⟩, ⟨0, 0, 1⟩⟩).2).1 +
      ((plane_coordinate_system ⟨⟨1, 2, 3⟩, ⟨0, 0, 1⟩⟩).2).smul
        (project_to_plane_coords ⟨4, 5, 3⟩ ⟨⟨1, 2, 3⟩, ⟨0, 0, 1⟩⟩
          (plane_coordinate_system ⟨⟨1, 2, 3⟩, ⟨0, 0, 1⟩⟩).1
          (plane_coordinate_system ⟨⟨1, 2, 3⟩, ⟨0, 0, 1⟩⟩).2).2 = ⟨4, 5, 3⟩) := by
  have hmag : (⟨⟨1, 2, 3⟩, ⟨0, 0, 1⟩⟩ : Plane).normal.magnitude = 1 := by
    rw [show (⟨⟨1, 2, 3⟩, ⟨0, 0, 1⟩⟩ : Plane).normal = ⟨0, 0, 1⟩ from rfl,
      Vector3D.magnitude_mk, show ((0 : ℝ) ^ 2 + 0 ^ 2 + 1 ^ 2) = 1 by norm_num,
      Real.sqrt_one]
  have hon : ((⟨4, 5, 3⟩ : Vector3D) - (⟨⟨1, 2, 3⟩, ⟨0, 0, 1⟩⟩ : Plane).point).dot
      (⟨⟨1, 2, 3⟩, ⟨0, 0, 1⟩⟩ : Plane).normal = 0 := by
    norm_num [Vector3D.dot]
  exact ⟨hmag, hon, plane_projection_roundtrip _ _ hmag hon⟩

/-! ## C3: ray-cylinder intersection characterization -/

/-- C3: with `a`, `b`, `c` the quadratic coefficients, `disc` the
discriminant, `t1 ≤ t2` the two roots and `T` the smaller root exceeding
`epsilon`, `ray_cylinder_intersection` returns `none` exactly when the ray is
parallel to the axis (`|a| < ε`), the discriminant is negative, neither root
exceeds `epsilon`, or the candidate hit point's local z falls outside
`[0, height]`; otherwise it returns `(T, ray.point_at T)`.  (For `0 < ε` the
guard `|a| ≥ ε` makes every division and `sqrt` well defined, so the source
raises no exception.) -/
theorem ray_cylinder_intersection_spec (ray : Ray) (cylinder : Cylinder)
    (epsilon a b c disc t1 t2 T zloc : ℝ)
    (heps : 0 < epsilon)
    (ha : a = ray.direction.x * ray.direction.x + ray.direction.y * ray.direction.y)
    (hb : b = 2 * ((ray.origin - cylinder.center).x * ray.direction.x +
      (ray.origin - cylinder.center).y * ray.direction.y))
    (hc : c = (ray.origin - cylinder.center).x * (ray.origin - cylinder.center).x +
      (ray.origin - cylinder.center).y * (ray.origin - cylinder.center).y -
      cylinder.radius * cylinder.radius)
    (hdisc : disc = b * b - 4 * a * c)
    (ht1 : t1 = (-b - Real.sqrt disc) / (2 * a))
    (ht2 : t2 = (-b + Real.sqrt disc) / (2 * a))
    (hT : T = if epsilon < t1 then t1 else t2)
    (hz : zloc = (ray.point_at T).z - cylinder.center.z) :
    (ray_cylinder_intersection ray cylinder epsilon = none ↔
      |a| < epsilon ∨ disc < 0 ∨ (t1 ≤ epsilon ∧ t2 ≤ epsilon) ∨
        ¬ (0 ≤ zloc ∧ zloc ≤ cylinder.height)) ∧
    (¬ (|a| < epsilon ∨ disc < 0 ∨ (t1 ≤ epsilon ∧ t2 ≤ epsilon) ∨
        ¬ (0 ≤ zloc ∧ zloc ≤ cylinder.height)) →
      ray_cylinder_intersection ray cylinder epsilon = some (T, ray.point_at T)) ∧
    (¬ |a| < epsilon → t1 ≤ t2) := by
  subst hz
  subst hT
  subst ht1
  subst ht2
  subst hdisc
  subst hc
  subst hb
  subst ha
  unfold ray_cylinder_intersection
  dsimp only []
  set A := ray.direction.x * ray.direction.x + ray.direction.y * ray.direction.y with hA
  set B := 2 * ((ray.origin - cylinder.center).x * ray.direction.x +
    (ray.origin - cylinder.center).y * ray.direction.y) with hB
  set C := (ray.origin - cylinder.center).x * (ray.origin - cylinder.center).x +
    (ray.origin - cylinder.center).y * (ray.origin - cylinder.center).y -
    cylinder.radius * cylinder.radius with hC
  set D := B * B - 4 * A * C with hD
  set SD := Real.sqrt D with hSD
  set T1 := (-B - SD) / (2 * A) with hT1
  set T2 := (-B + SD) / (2 * A) with hT2
  by_cases h1 : |A| < epsilon
  · rw [if_pos h1]
    exact ⟨iff_of_true rfl (Or.inl h1), fun hn => absurd (Or.inl h1) hn,
      fun hcon => absurd h1 hcon⟩
  · rw [if_neg h1]
    have ha0 : 0 ≤ A := by
      rw [hA]
      nlinarith [sq_nonneg ray.direction.x, sq_nonneg ray.direction.y]
    have hapos : 0 < A := by
      have habs := le_of_not_lt h1
      rw [abs_of_nonneg ha0] at habs
      linarith
    have hsd : 0 ≤ SD := by
      rw [hSD]
      exact Real.sqrt_nonneg _
    have h12 : T1 ≤ T2 := by
      rw [hT1, hT2]
      apply div_le_div_of_nonneg_right ?_ ?_
      · linarith
      · linarith
    by_cases h2 : D < 0
    · rw [if_pos h2]
      exact ⟨iff_of_true rfl (Or.inr (Or.inl h2)),
        fun hn => absurd (Or.inr (Or.inl h2)) hn, fun _ => h12⟩
    · rw [if_neg h2]
      by_cases hc1 : epsilon < T1
      · have hc2 : epsilon < T2 := lt_of_lt_of_le hc1 h12
        simp only [if_pos hc1, if_pos hc2]
        simp only [List.singleton_append, cylinderHit, List.foldl_cons, List.foldl_nil]
        rw [min_eq_left h12]
        by_cases h3 : 0 ≤ (ray.point_at T1).z - cylinder.center.z ∧
            (ray.point_at T1).z - cylinder.center.z ≤ cylinder.height
        · rw [if_pos h3]
          refine ⟨?_, fun _ => rfl, fun _ => h12⟩
          constructor
          · intro hcontra
            exact absurd hcontra (by simp)
          · intro hdisj
            rcases hdisj with h | h | ⟨hh1, _⟩ | h
            · exact absurd h h1
            · exact absurd h h2
            · exact absurd hc1 (not_lt.mpr hh1)
            · exact absurd h3 h
        · rw [if_neg h3]
          exact ⟨iff_of_true rfl (Or.inr (Or.inr (Or.inr h3))),
            fun hn => absurd (Or.inr (Or.inr (Or.inr h3))) hn, fun _ => h12⟩
      · by_cases hc2 : epsilon < T2
        · simp only [if_neg hc1, if_pos hc2]
          simp only [List.nil_append, cylinderHit, List.foldl_nil]
          by_cases h3 : 0 ≤ (ray.point_at T2).z - cylinder.center.z ∧
              (ray.point_at T2).z - cylinder.center.z ≤ cylinder.height
          · rw [if_pos h3]
            refine ⟨?_, fun _ => rfl, fun _ => h12⟩
            constructor
            · intro hcontra
              exact absurd hcontra (by simp)
            · intro hdisj
              rcases hdisj with h | h | ⟨_, hh2⟩ | h
              · exact absurd h h1
              · exact absurd h h2
              · exact absurd hc2 (not_lt.mpr hh2)
              · exact absurd h3 h
          · rw [if_neg h3]
            exact ⟨iff_of_true rfl (Or.inr (Or.inr (Or.inr h3))),
              fun hn => absurd (Or.inr (Or.inr (Or.inr h3))) hn, fun _ => h12⟩
        · simp only [if_neg hc1, if_neg hc2, List.append_nil, cylinderHit]
          exact ⟨iff_of_true trivial
              (Or.inr (Or.inr (Or.inl ⟨le_of_not_lt hc1, le_of_not_lt hc2⟩))),
            fun hn => absurd
              (Or.inr (Or.inr (Or.inl ⟨le_of_not_lt hc1, le_of_not_lt hc2⟩))) hn,
            fun _ => h12⟩

/-- Witness for C3: the horizontal ray from `(-5,0,1)` along `+x` hits the
unit-radius, height-2 cylinder at parameter `t = 4` (the smaller root `> ε`),
and `ray_cylinder_intersection` returns exactly that hit. -/
theorem ray_cylinder_intersection_spec_witness :
    (0 : ℝ) < 1 ∧
    ray_cylinder_intersection ⟨⟨-5, 0, 1⟩, ⟨1, 0, 0⟩⟩ ⟨⟨0, 0, 0⟩, 1, 2⟩ 1 =
      some (4, Ray.point_at ⟨⟨-5, 0, 1⟩, ⟨1, 0, 0⟩⟩ 4) := by
  have hsqrt : Real.sqrt 4 = 2 := by
    rw [show (4 : ℝ) = 2 ^ 2 by norm_num, Real.sqrt_sq (by norm_num)]
  have spec := ray_cylinder_intersection_spec ⟨⟨-5, 0, 1⟩, ⟨1, 0, 0⟩⟩ ⟨⟨0, 0, 0⟩, 1, 2⟩
    1 1 (-10) 24 4 4 6 4 1
    (by norm_num)
    (by norm_num)
    (by norm_num)
    (by norm_num)
    (by norm_num)
    (by norm_num [hsqrt])
    (by norm_num [hsqrt])
    (by norm_num)
    (by norm_num [Ray.point_at])
  refine ⟨by norm_num, spec.2.1 ?_⟩
  norm_num

/-! ## Helper lemmas for the Samrat generator (C5, C10) -/

theorem samratHourEntry_eq_some (lat bl gh decl : ℝ) (side : Side) (hour : ℕ)
    (p : ℕ × YantraPoint) :
    samratHourEntry lat bl gh decl side hour = some p ↔
      p.1 = hour ∧ samratStep lat bl gh decl hour = some (side, p.2) := by
  unfold samratHourEntry
  cases hstep : samratStep lat bl gh decl hour with
  | none => simp
  | some v =>
    obtain ⟨s, yp⟩ := v
    by_cases hs : s = side
    · subst hs
      simp [Prod.ext_iff, eq_comm]
    · simp [hs, Prod.ext_iff]

theorem samratHourEntry_map_snd (lat bl gh decl : ℝ) (side : Side) (hour : ℕ) :
    (samratHourEntry lat bl gh decl side hour).map Prod.snd =
      samratCurveEntry lat bl gh decl side hour := by
  unfold samratHourEntry samratCurveEntry
  cases samratStep lat bl gh decl hour with
  | none => rfl
  | some v =>
    obtain ⟨s, yp⟩ := v
    by_cases hs : s = side
    · simp [hs]
    · simp [hs]

theorem samratSeasonHourLines_non_equinox (lat bl gh decl : ℝ) (name : String)
    (side : Side) (hne : ¬ name = "equinox") :
    samratSeasonHourLines lat bl gh decl name side = [] := by
  unfold samratSeasonHourLines
  rw [if_neg hne]

theorem samratSeasonHourLines_pairwise (lat bl gh decl : ℝ) (name : String) (side : Side) :
    (samratSeasonHourLines lat bl gh decl name side).Pairwise fun p q => p.1 < q.1 := by
  unfold samratSeasonHourLines
  split
  · rw [List.pairwise_filterMap]
    refine (List.pairwise_lt_range' 6 13).imp ?_
    intro a b hab p hp q hq
    rw [Option.mem_def, samratHourEntry_eq_some] at hp hq
    rw [hp.1, hq.1]
    exact hab
  · exact List.Pairwise.nil

theorem samratSeasonHourLines_mem (lat bl gh decl : ℝ) (side : Side) (h : ℕ)
    (yp : YantraPoint) :
    (h, yp) ∈ samratSeasonHourLines lat bl gh decl "equinox" side ↔
      h ∈ hoursList ∧ samratStep lat bl gh decl h = some (side, yp) := by
  unfold samratSeasonHourLines
  rw [if_pos rfl, List.mem_filterMap]
  constructor
  · rintro ⟨a, ha, hFa⟩
    obtain ⟨h1, h2⟩ := (samratHourEntry_eq_some lat bl gh decl side a (h, yp)).mp hFa
    simp only at h1 h2
    rw [← h1] at ha h2
    exact ⟨ha, h2⟩
  · rintro ⟨hh, hstep⟩
    exact ⟨h, hh, (samratHourEntry_eq_some lat bl gh decl side h (h, yp)).mpr ⟨rfl, hstep⟩⟩

theorem samratSeasonHourLines_map_snd (lat bl gh decl : ℝ) (side : Side) :
    (samratSeasonHourLines lat bl gh decl "equinox" side).map Prod.snd =
      samratSeasonCurve lat bl gh decl side := by
  unfold samratSeasonHourLines samratSeasonCurve
  rw [if_pos rfl, List.map_filterMap]
  congr 1
  funext hour
  exact samratHourEntry_map_snd lat bl gh decl side hour

theorem generate_hour_lines_east_eq (lat bl : ℝ) (gharg : Option ℝ) :
    (generate_samrat_yantra_geometry lat bl gharg).hour_lines_east =
      samratSeasonHourLines lat bl
        (generate_samrat_yantra_geometry lat bl gharg).gnomon_height 0 "equinox"
        Side.east := by
  unfold generate_samrat_yantra_geometry
  dsimp only []
  rw [samratSeasonHourLines_non_equinox lat bl _ 23.44 "summer_solstice" Side.east
      (by decide),
    samratSeasonHourLines_non_equinox lat bl _ (-23.44) "winter_solstice" Side.east
      (by decide),
    List.append_nil, List.append_nil]

theorem generate_hour_lines_west_eq (lat bl : ℝ) (gharg : Option ℝ) :
    (generate_samrat_yantra_geometry lat bl gharg).hour_lines_west =
      samratSeasonHourLines lat bl
        (generate_samrat_yantra_geometry lat bl gharg).gnomon_height 0 "equinox"
        Side.west := by
  unfold generate_samrat_yantra_geometry
  dsimp only []
  rw [samratSeasonHourLines_non_equinox lat bl _ 23.44 "summer_solstice" Side.west
      (by decide),
    samratSeasonHourLines_non_equinox lat bl _ (-23.44) "winter_solstice" Side.west
      (by decide),
    List.append_nil, List.append_nil]

theorem generate_equinox_east_eq (lat bl : ℝ) (gharg : Option ℝ) :
    (generate_samrat_yantra_geometry lat bl gharg).equinox_east =
      samratSeasonCurve lat bl
        (generate_samrat_yantra_geometry lat bl gharg).gnomon_height 0 Side.east := by
  unfold generate_samrat_yantra_geometry
  dsimp only []

theorem generate_equinox_west_eq (lat bl : ℝ) (gharg : Option ℝ) :
    (generate_samrat_yantra_geometry lat bl gharg).equinox_west =
      samratSeasonCurve lat bl
        (generate_samrat_yantra_geometry lat bl gharg).gnomon_height 0 Side.west := by
  unfold generate_samrat_yantra_geometry
  dsimp only []

/-! ## C5: hour lines are the ordered equinox points -/

/-- C5: in the result of `generate_samrat_yantra_geometry`, each side's
`hour_lines` list is strictly increasing in the hour, its points are exactly
the equinox seasonal-curve points of that side, and a pair `(hour, point)`
appears in it exactly when the equinox-season step for that hour recorded an
intersection on that side. -/
theorem samrat_hour_lines_spec (latitude_deg base_length : ℝ) (gh_arg : Option ℝ) :
    ((generate_samrat_yantra_geometry latitude_deg base_length gh_arg).hour_lines_east.Pairwise
      fun p q => p.1 < q.1) ∧
    ((generate_samrat_yantra_geometry latitude_deg base_length gh_arg).hour_lines_west.Pairwise
      fun p q => p.1 < q.1) ∧
    (generate_samrat_yantra_geometry latitude_deg base_length gh_arg).hour_lines_east.map
        Prod.snd =
      (generate_samrat_yantra_geometry latitude_deg base_length gh_arg).equinox_east ∧
    (generate_samrat_yantra_geometry latitude_deg base_length gh_arg).hour_lines_west.map
        Prod.snd =
      (generate_samrat_yantra_geometry latitude_deg base_length gh_arg).equinox_west ∧
    (∀ (h : ℕ) (yp : YantraPoint),
      (h, yp) ∈ (generate_samrat_yantra_geometry latitude_deg base_length gh_arg).hour_lines_east
        ↔ h ∈ hoursList ∧
          samratStep latitude_deg base_length
            (generate_samrat_yantra_geometry latitude_deg base_length gh_arg).gnomon_height 0 h
            = some (Side.east, yp)) ∧
    (∀ (h : ℕ) (yp : YantraPoint),
      (h, yp) ∈ (generate_samrat_yantra_geometry latitude_deg base_length gh_arg).hour_lines_west
        ↔ h ∈ hoursList ∧
          samratStep latitude_deg base_length
            (generate_samrat_yantra_geometry latitude_deg base_length gh_arg).gnomon_height 0 h
            = some (Side.west, yp)) := by
  rw [generate_hour_lines_east_eq, generate_hour_lines_west_eq,
    generate_equinox_east_eq, generate_equinox_west_eq]
  exact ⟨samratSeasonHourLines_pairwise _ _ _ _ _ _,
    samratSeasonHourLines_pairwise _ _ _ _ _ _,
    samratSeasonHourLines_map_snd _ _ _ _ _,
    samratSeasonHourLines_map_snd _ _ _ _ _,
    fun h yp => samratSeasonHourLines_mem _ _ _ _ _ h yp,
    fun h yp => samratSeasonHourLines_mem _ _ _ _ _ h yp⟩

/-- Witness for C5 at latitude 0, base length 20 (default gnomon height). -/
theorem samrat_hour_lines_spec_witness :
    (generate_samrat_yantra_geometry 0 20 none).hour_lines_east.map Prod.snd =
      (generate_samrat_yantra_geometry 0 20 none).equinox_east :=
  (samrat_hour_lines_spec 0 20 none).2.2.1

/-! ## C10: default gnomon height and the shadow-ray origin -/

/-- If `ray_plane_intersection` succeeds, the returned point is
`ray.point_at t` for the returned parameter `t`. -/
theorem ray_plane_intersection_point_eq (ray : Ray) (plane : Plane) (epsilon t : ℝ)
    (p : Vector3D) (h : ray_plane_intersection ray plane epsilon = some (t, p)) :
    p = ray.point_at t := by
  unfold ray_plane_intersection at h
  dsimp only [] at h
  split at h
  · exact absurd h (by simp)
  · split at h
    · exact absurd h (by simp)
    · simp only [Option.some.injEq, Prod.mk.injEq] at h
      rw [← h.1, ← h.2]

/-- Every point recorded by a Samrat step lies on the shadow ray cast from
the gnomon tip, at parameter `shadow_length`. -/
theorem samratStep_position (lat bl gh decl : ℝ) (hour : ℕ) (side : Side)
    (yp : YantraPoint) (h : samratStep lat bl gh decl hour = some (side, yp)) :
    yp.position_3d = (samratShadowRay lat gh decl hour).point_at yp.shadow_length := by
  unfold samratStep at h
  dsimp only [] at h
  split at h
  · exact absurd h (by simp)
  · split at h
    · split at h
      · exact absurd h (by simp)
      · rename_i t point heq
        simp only [Option.some.injEq, Prod.mk.injEq] at h
        rw [← h.2]
        exact ray_plane_intersection_point_eq _ _ _ _ _ heq
    · split at h
      · exact absurd h (by simp)
      · rename_i t point heq
        simp only [Option.some.injEq, Prod.mk.injEq] at h
        rw [← h.2]
        exact ray_plane_intersection_point_eq _ _ _ _ _ heq

/-- C10: with `gnomon_height` omitted, the gnomon height used and reported is
`base_length * tan(radians(|latitude|))`; every shadow ray originates at the
gnomon tip `(0, 0, gnomon_height)`, and every recorded hour-line point lies on
its hour's shadow ray from that tip. -/
theorem samrat_default_gnomon_and_rays (latitude_deg base_length : ℝ) :
    (generate_samrat_yantra_geometry latitude_deg base_length none).gnomon_height =
      base_length * Real.tan (radians |latitude_deg|) ∧
    (∀ (decl : ℝ) (hour : ℕ),
      (samratShadowRay latitude_deg
        (generate_samrat_yantra_geometry latitude_deg base_length none).gnomon_height
        decl hour).origin =
      ⟨0, 0, (generate_samrat_yantra_geometry latitude_deg base_length none).gnomon_height⟩) ∧
    (∀ p ∈ (generate_samrat_yantra_geometry latitude_deg base_length none).hour_lines_east,
      p.2.position_3d = (samratShadowRay latitude_deg
        (generate_samrat_yantra_geometry latitude_deg base_length none).gnomon_height 0
        p.1).point_at p.2.shadow_length) ∧
    (∀ p ∈ (generate_samrat_yantra_geometry latitude_deg base_length none).hour_lines_west,
      p.2.position_3d = (samratShadowRay latitude_deg
        (generate_samrat_yantra_geometry latitude_deg base_length none).gnomon_height 0
        p.1).point_at p.2.shadow_length) := by
  refine ⟨rfl, fun decl hour => rfl, ?_, ?_⟩
  · intro p hp
    obtain ⟨h, yp⟩ := p
    rw [generate_hour_lines_east_eq] at hp
    obtain ⟨-, hstep⟩ := (samratSeasonHourLines_mem _ _ _ _ _ _ _).mp hp
    exact samratStep_position _ _ _ _ _ _ _ hstep
  · intro p hp
    obtain ⟨h, yp⟩ := p
    rw [generate_hour_lines_west_eq] at hp
    obtain ⟨-, hstep⟩ := (samratSeasonHourLines_mem _ _ _ _ _ _ _).mp hp
    exact samratStep_position _ _ _ _ _ _ _ hstep

/-- Witness for C10 at latitude 0, base length 20. -/
theorem samrat_default_gnomon_and_rays_witness :
    (generate_samrat_yantra_geometry 0 20 none).gnomon_height =
      20 * Real.tan (radians |(0 : ℝ)|) :=
  (samrat_default_gnomon_and_rays 0 20).1

set_option maxHeartbeats 1000000

/-! ## C4: the worked golden example.
Numeric machinery: order-10 Taylor approximations of sine and cosine with an
explicit error bound derived from `Complex.exp_bound`, rational brackets for
`radians 23.1765`, `cos`, `sin`, `√2`, `arcsin` and `arctan`. -/

/-- Order-10 Taylor bound for cosine on `|x| ≤ 1`. -/
theorem cos_taylor10 {x : ℝ} (hx : |x| ≤ 1) :
    |Real.cos x - (1 - x ^ 2 / 2 + x ^ 4 / 24 - x ^ 6 / 720 + x ^ 8 / 40320)| ≤
      |x| ^ 10 * (11 / 36288000) := by
  have h2 : Complex.I ^ 2 = -1 := Complex.I_sq
  have h3 : Complex.I ^ 3 = -Complex.I := by
    rw [pow_succ, h2]
    ring
  have h4 : Complex.I ^ 4 = 1 := Complex.I_pow_four
  have h5 : Complex.I ^ 5 = Complex.I := by
    rw [pow_succ, h4, one_mul]
  have h6 : Complex.I ^ 6 = -1 := by
    rw [pow_succ, h5, Complex.I_mul_I]
  have h7 : Complex.I ^ 7 = -Complex.I := by
    rw [pow_succ, h6]
    ring
  have h8 : Complex.I ^ 8 = 1 := by
    rw [pow_succ, h7, neg_mul, Complex.I_mul_I]
    ring
  have h9 : Complex.I ^ 9 = Complex.I := by
    rw [pow_succ, h8, one_mul]
  have hS : (∑ m ∈ Finset.range 10, ((x : ℂ) * Complex.I) ^ m / (m.factorial : ℂ)).re =
      1 - x ^ 2 / 2 + x ^ 4 / 24 - x ^ 6 / 720 + x ^ 8 / 40320 := by
    simp only [Finset.sum_range_succ, Finset.sum_range_zero, mul_pow,
      h2, h3, h4, h5, h6, h7, h8, h9, pow_zero, pow_one, one_mul, mul_one, mul_neg]
    simp [Nat.factorial, ← Complex.ofReal_pow]
    ring
  have hb := Complex.exp_bound (x := (x : ℂ) * Complex.I) (by simpa using hx) (n := 10)
    (by norm_num)
  have habs : Complex.abs ((x : ℂ) * Complex.I) = |x| := by
    simp
  have hre : Real.cos x - (1 - x ^ 2 / 2 + x ^ 4 / 24 - x ^ 6 / 720 + x ^ 8 / 40320) =
      (Complex.exp ((x : ℂ) * Complex.I) -
        ∑ m ∈ Finset.range 10, ((x : ℂ) * Complex.I) ^ m / (m.factorial : ℂ)).re := by
    rw [Complex.sub_re, Complex.exp_ofReal_mul_I_re, hS]
  rw [hre]
  refine le_trans (Complex.abs_re_le_abs _) (le_trans hb ?_)
  rw [habs]
  norm_num [Nat.factorial]

/-- Order-10 Taylor bound for sine on `|x| ≤ 1`. -/
theorem sin_taylor10 {x : ℝ} (hx : |x| ≤ 1) :
    |Real.sin x - (x - x ^ 3 / 6 + x ^ 5 / 120 - x ^ 7 / 5040 + x ^ 9 / 362880)| ≤
      |x| ^ 10 * (11 / 36288000) := by
  have h2 : Complex.I ^ 2 = -1 := Complex.I_sq
  have h3 : Complex.I ^ 3 = -Complex.I := by
    rw [pow_succ, h2]
    ring
  have h4 : Complex.I ^ 4 = 1 := Complex.I_pow_four
  have h5 : Complex.I ^ 5 = Complex.I := by
    rw [pow_succ, h4, one_mul]
  have h6 : Complex.I ^ 6 = -1 := by
    rw [pow_succ, h5, Complex.I_mul_I]
  have h7 : Complex.I ^ 7 = -Complex.I := by
    rw [pow_succ, h6]
    ring
  have h8 : Complex.I ^ 8 = 1 := by
    rw [pow_succ, h7, neg_mul, Complex.I_mul_I]
    ring
  have h9 : Complex.I ^ 9 = Complex.I := by
    rw [pow_succ, h8, one_mul]
  have hS : (∑ m ∈ Finset.range 10, ((x : ℂ) * Complex.I) ^ m / (m.factorial : ℂ)).im =
      x - x ^ 3 / 6 + x ^ 5 / 120 - x ^ 7 / 5040 + x ^ 9 / 362880 := by
    simp only [Finset.sum_range_succ, Finset.sum_range_zero, mul_pow,
      h2, h3, h4, h5, h6, h7, h8, h9, pow_zero, pow_one, one_mul, mul_one, mul_neg]
    simp [Nat.factorial, ← Complex.ofReal_pow]
    ring
  have hb := Complex.exp_bound (x := (x : ℂ) * Complex.I) (by simpa using hx) (n := 10)
    (by norm_num)
  have habs : Complex.abs ((x : ℂ) * Complex.I) = |x| := by
    simp
  have hre : Real.sin x - (x - x ^ 3 / 6 + x ^ 5 / 120 - x ^ 7 / 5040 + x ^ 9 / 362880) =
      (Complex.exp ((x : ℂ) * Complex.I) -
        ∑ m ∈ Finset.range 10, ((x : ℂ) * Complex.I) ^ m / (m.factorial : ℂ)).im := by
    rw [Complex.sub_im, Complex.exp_ofReal_mul_I_im, hS]
  rw [hre]
  refine le_trans (Complex.abs_im_le_abs _) (le_trans hb ?_)
  rw [habs]
  norm_num [Nat.factorial]



theorem phi_bounds :
    0.4045062340 < radians 23.1765 ∧ radians 23.1765 < 0.4045062342 := by
  unfold radians
  constructor
  · nlinarith [Real.pi_gt_d20]
  · nlinarith [Real.pi_lt_d20]

theorem sqrt2_bounds :
    (1.41421356237309 : ℝ) < Real.sqrt 2 ∧ Real.sqrt 2 < 1.41421356237310 := by
  constructor
  · rw [Real.lt_sqrt (by norm_num)]
    norm_num
  · rw [Real.sqrt_lt' (by norm_num)]
    norm_num

theorem cos_phi_bounds :
    0.9192968380 < Real.cos (radians 23.1765) ∧
      Real.cos (radians 23.1765) < 0.9192968383 := by
  obtain ⟨h1, h2⟩ := phi_bounds
  set p := radians 23.1765 with hp
  have hp0 : (0 : ℝ) < p := by linarith
  have habs : |p| ≤ 1 := by
    rw [abs_of_pos hp0]
    linarith
  have ht := cos_taylor10 habs
  rw [abs_of_pos hp0] at ht
  obtain ⟨hL, hU⟩ := abs_le.mp ht
  have e2l : (0.4045062340 : ℝ) ^ 2 < p ^ 2 := pow_lt_pow_left h1 (by norm_num) (by norm_num)
  have e2u : p ^ 2 < (0.4045062342 : ℝ) ^ 2 := pow_lt_pow_left h2 (by linarith) (by norm_num)
  have e4l : (0.4045062340 : ℝ) ^ 4 < p ^ 4 := pow_lt_pow_left h1 (by norm_num) (by norm_num)
  have e4u : p ^ 4 < (0.4045062342 : ℝ) ^ 4 := pow_lt_pow_left h2 (by linarith) (by norm_num)
  have e6l : (0.4045062340 : ℝ) ^ 6 < p ^ 6 := pow_lt_pow_left h1 (by norm_num) (by norm_num)
  have e6u : p ^ 6 < (0.4045062342 : ℝ) ^ 6 := pow_lt_pow_left h2 (by linarith) (by norm_num)
  have e8l : (0.4045062340 : ℝ) ^ 8 < p ^ 8 := pow_lt_pow_left h1 (by norm_num) (by norm_num)
  have e8u : p ^ 8 < (0.4045062342 : ℝ) ^ 8 := pow_lt_pow_left h2 (by linarith) (by norm_num)
  have e10u : p ^ 10 < (0.4045062342 : ℝ) ^ 10 :=
    pow_lt_pow_left h2 (by linarith) (by norm_num)
  constructor
  · linarith
  · linarith

theorem sin_phi_bounds :
    0.3935648907 < Real.sin (radians 23.1765) ∧
      Real.sin (radians 23.1765) < 0.3935648911 := by
  obtain ⟨h1, h2⟩ := phi_bounds
  set p := radians 23.1765 with hp
  have hp0 : (0 : ℝ) < p := by linarith
  have habs : |p| ≤ 1 := by
    rw [abs_of_pos hp0]
    linarith
  have ht := sin_taylor10 habs
  rw [abs_of_pos hp0] at ht
  obtain ⟨hL, hU⟩ := abs_le.mp ht
  have e3l : (0.4045062340 : ℝ) ^ 3 < p ^ 3 := pow_lt_pow_left h1 (by norm_num) (by norm_num)
  have e3u : p ^ 3 < (0.4045062342 : ℝ) ^ 3 := pow_lt_pow_left h2 (by linarith) (by norm_num)
  have e5l : (0.4045062340 : ℝ) ^ 5 < p ^ 5 := pow_lt_pow_left h1 (by norm_num) (by norm_num)
  have e5u : p ^ 5 < (0.4045062342 : ℝ) ^ 5 := pow_lt_pow_left h2 (by linarith) (by norm_num)
  have e7l : (0.4045062340 : ℝ) ^ 7 < p ^ 7 := pow_lt_pow_left h1 (by norm_num) (by norm_num)
  have e7u : p ^ 7 < (0.4045062342 : ℝ) ^ 7 := pow_lt_pow_left h2 (by linarith) (by norm_num)
  have e9l : (0.4045062340 : ℝ) ^ 9 < p ^ 9 := pow_lt_pow_left h1 (by norm_num) (by norm_num)
  have e9u : p ^ 9 < (0.4045062342 : ℝ) ^ 9 := pow_lt_pow_left h2 (by linarith) (by norm_num)
  have e10u : p ^ 10 < (0.4045062342 : ℝ) ^ 10 :=
    pow_lt_pow_left h2 (by linarith) (by norm_num)
  constructor
  · linarith
  · linarith

theorem s_expr_bounds :
    0.6500410280 < Real.cos (radians 23.1765) * (Real.sqrt 2 / 2) ∧
    Real.cos (radians 23.1765) * (Real.sqrt 2 / 2) < 0.6500410284 := by
  obtain ⟨hc1, hc2⟩ := cos_phi_bounds
  obtain ⟨hr1, hr2⟩ := sqrt2_bounds
  constructor
  · nlinarith [mul_pos (sub_pos.mpr hc1) (sub_pos.mpr hr1)]
  · nlinarith [mul_pos (sub_pos.mpr hc2) (sub_pos.mpr hr2)]

theorem ca_bounds {s : ℝ} (h1 : 0.6500410280 < s) (h2 : s < 0.6500410284) :
    0.7598991 < Real.cos (Real.arcsin s) ∧ Real.cos (Real.arcsin s) < 0.7598993 := by
  rw [Real.cos_arcsin]
  constructor
  · rw [Real.lt_sqrt (by norm_num)]
    nlinarith
  · rw [Real.sqrt_lt' (by norm_num)]
    nlinarith

theorem arcsin_s_bounds {s : ℝ} (h1 : 0.6500410280 < s) (h2 : s < 0.6500410284) :
    0.7076383 < Real.arcsin s ∧ Real.arcsin s < 0.7076386 := by
  have hpi2 : (1.5707963 : ℝ) < Real.pi / 2 := by nlinarith [Real.pi_gt_d20]
  have hs_mem : s ∈ Set.Icc (-1 : ℝ) 1 := ⟨by linarith, by linarith⟩
  have hsinb1 : Real.sin 0.7076383 < s := by
    have h := sin_taylor10 (x := (0.7076383 : ℝ))
      (by rw [abs_of_pos (by norm_num : (0:ℝ) < 0.7076383)]; norm_num)
    rw [abs_of_pos (by norm_num : (0:ℝ) < 0.7076383)] at h
    obtain ⟨hL, hU⟩ := abs_le.mp h
    nlinarith [hU]
  have hsinb2 : s < Real.sin 0.7076386 := by
    have h := sin_taylor10 (x := (0.7076386 : ℝ))
      (by rw [abs_of_pos (by norm_num : (0:ℝ) < 0.7076386)]; norm_num)
    rw [abs_of_pos (by norm_num : (0:ℝ) < 0.7076386)] at h
    obtain ⟨hL, hU⟩ := abs_le.mp h
    nlinarith [hL]
  constructor
  · exact (Real.lt_arcsin_iff_sin_lt ⟨by linarith, by linarith⟩ hs_mem).mpr hsinb1
  · exact (Real.arcsin_lt_iff_lt_sin hs_mem ⟨by linarith, by linarith⟩).mpr hsinb2

theorem arctan_u_bounds {u : ℝ} (h1 : 0.3935648907 < u) (h2 : u < 0.3935648911) :
    0.3749464 < Real.arctan u ∧ Real.arctan u < 0.3749468 := by
  have hpi2 : (1.5707963 : ℝ) < Real.pi / 2 := by nlinarith [Real.pi_gt_d20]
  have hsa1 : Real.sin 0.3749464 < 0.36622266 := by
    have h := sin_taylor10 (x := (0.3749464 : ℝ))
      (by rw [abs_of_pos (by norm_num : (0:ℝ) < 0.3749464)]; norm_num)
    rw [abs_of_pos (by norm_num : (0:ℝ) < 0.3749464)] at h
    obtain ⟨hL, hU⟩ := abs_le.mp h
    nlinarith [hU]
  have hca1 : (0.9305272 : ℝ) < Real.cos 0.3749464 := by
    have h := cos_taylor10 (x := (0.3749464 : ℝ))
      (by rw [abs_of_pos (by norm_num : (0:ℝ) < 0.3749464)]; norm_num)
    rw [abs_of_pos (by norm_num : (0:ℝ) < 0.3749464)] at h
    obtain ⟨hL, hU⟩ := abs_le.mp h
    nlinarith [hL]
  have hsa2 : (0.36622302 : ℝ) < Real.sin 0.3749468 := by
    have h := sin_taylor10 (x := (0.3749468 : ℝ))
      (by rw [abs_of_pos (by norm_num : (0:ℝ) < 0.3749468)]; norm_num)
    rw [abs_of_pos (by norm_num : (0:ℝ) < 0.3749468)] at h
    obtain ⟨hL, hU⟩ := abs_le.mp h
    nlinarith [hL]
  have hca2 : Real.cos 0.3749468 < 0.93052711 := by
    have h := cos_taylor10 (x := (0.3749468 : ℝ))
      (by rw [abs_of_pos (by norm_num : (0:ℝ) < 0.3749468)]; norm_num)
    rw [abs_of_pos (by norm_num : (0:ℝ) < 0.3749468)] at h
    obtain ⟨hL, hU⟩ := abs_le.mp h
    nlinarith [hU]
  have hca2_pos : (0 : ℝ) < Real.cos 0.3749468 := by
    have h := cos_taylor10 (x := (0.3749468 : ℝ))
      (by rw [abs_of_pos (by norm_num : (0:ℝ) < 0.3749468)]; norm_num)
    rw [abs_of_pos (by norm_num : (0:ℝ) < 0.3749468)] at h
    obtain ⟨hL, hU⟩ := abs_le.mp h
    nlinarith [hL]
  constructor
  · have htan : Real.tan 0.3749464 < u := by
      rw [Real.tan_eq_sin_div_cos, div_lt_iff (by linarith)]
      nlinarith [mul_pos (sub_pos.mpr h1) (sub_pos.mpr hca1)]
    have := Real.arctan_strictMono htan
    rwa [Real.arctan_tan (by linarith) (by linarith)] at this
  · have htan : u < Real.tan 0.3749468 := by
      rw [Real.tan_eq_sin_div_cos, lt_div_iff hca2_pos]
      nlinarith [mul_pos (sub_pos.mpr h2) (sub_pos.mpr hca2)]
    have := Real.arctan_strictMono htan
    rwa [Real.arctan_tan (by linarith) (by linarith)] at this

/-- C4: the worked golden example — `solar_position(23.1765, 0, 45)` returns
altitude within 0.001 degrees of 40.5447 and azimuth within 0.001 degrees of
111.4829.  Proved by order-10 Taylor bounds on sine and cosine together with
the 20-digit bounds on π. -/
theorem solar_position_golden_example :
    |(solar_position 23.1765 0 45).altitude - 40.5447| < 0.001 ∧
    |(solar_position 23.1765 0 45).azimuth - 111.4829| < 0.001 := by
  have hpi_lo := Real.pi_gt_d20
  have hpi_hi := Real.pi_lt_d20
  have hpi_pos := Real.pi_pos
  obtain ⟨hc1, hc2⟩ := cos_phi_bounds
  obtain ⟨hsf1, hsf2⟩ := sin_phi_bounds
  obtain ⟨hs1, hs2⟩ := s_expr_bounds
  obtain ⟨hr1, hr2⟩ := sqrt2_bounds
  have h45 : radians 45 = Real.pi / 4 := by
    unfold radians
    ring
  have h0 : radians 0 = 0 := by
    unfold radians
    ring
  unfold solar_position
  dsimp only []
  rw [h0, h45, Real.sin_zero, Real.cos_zero, Real.sin_pi_div_four, Real.cos_pi_div_four]
  rw [show Real.sin (radians 23.1765) * 0 + Real.cos (radians 23.1765) * 1 * (Real.sqrt 2 / 2)
      = Real.cos (radians 23.1765) * (Real.sqrt 2 / 2) from by ring]
  set s := Real.cos (radians 23.1765) * (Real.sqrt 2 / 2) with hsdef
  rw [show max (-1 : ℝ) (min 1 s) = s from by
    rw [min_eq_right (by linarith), max_eq_right (by linarith)]]
  obtain ⟨hca1, hca2⟩ := ca_bounds hs1 hs2
  obtain ⟨hb1, hb2⟩ := arcsin_s_bounds hs1 hs2
  obtain ⟨ha1, ha2⟩ := arctan_u_bounds hsf1 hsf2
  rw [if_neg (show ¬ (|Real.cos (Real.arcsin s)| < 1e-9) from by
    rw [abs_of_pos (by linarith)]
    exact not_lt.mpr (by linarith))]
  set ca := Real.cos (Real.arcsin s) with hcadef
  set u := Real.sin (radians 23.1765) with hudef
  set cphi := Real.cos (radians 23.1765) with hcpdef
  have hu_pos : (0 : ℝ) < u := by linarith
  have hca_pos : (0 : ℝ) < ca := by linarith
  have hcphi_pos : (0 : ℝ) < cphi := by linarith
  have hs_pos : (0 : ℝ) < s := by linarith
  have hsinaz_pos : 0 < 1 * (Real.sqrt 2 / 2) / ca := by
    apply div_pos (by nlinarith) hca_pos
  have hcosaz_neg : (0 - s * u) / (ca * cphi) < 0 := by
    apply div_neg_of_neg_of_pos (by nlinarith) (by nlinarith)
  have hatan2 : atan2 (1 * (Real.sqrt 2 / 2) / ca) ((0 - s * u) / (ca * cphi)) =
      Real.arctan u + Real.pi / 2 := by
    unfold atan2
    rw [if_neg (not_lt.mpr (le_of_lt hcosaz_neg)), if_pos hcosaz_neg,
      if_pos (le_of_lt hsinaz_pos)]
    have hq : 1 * (Real.sqrt 2 / 2) / ca / ((0 - s * u) / (ca * cphi)) = -(u⁻¹) := by
      rw [hsdef]
      field_simp
      ring
    rw [hq, show -(u⁻¹) = -u⁻¹ from rfl, Real.arctan_neg,
      Real.arctan_inv_of_pos hu_pos]
    ring
  have halt : degrees (Real.arcsin s) * Real.pi = Real.arcsin s * 180 := by
    unfold degrees
    field_simp
  have halt_lo : (40.5437 : ℝ) < degrees (Real.arcsin s) := by
    nlinarith [halt, hb1, hpi_hi, hpi_pos]
  have halt_hi : degrees (Real.arcsin s) < 40.5457 := by
    nlinarith [halt, hb2, hpi_lo, hpi_pos]
  have hazi : degrees (Real.arctan u + Real.pi / 2) * Real.pi =
      Real.arctan u * 180 + 90 * Real.pi := by
    unfold degrees
    field_simp
    ring
  have haz_lo : (111.4819 : ℝ) < degrees (Real.arctan u + Real.pi / 2) := by
    nlinarith [hazi, ha1, hpi_hi, hpi_pos]
  have haz_hi : degrees (Real.arctan u + Real.pi / 2) < 111.4839 := by
    nlinarith [hazi, ha2, hpi_lo, hpi_pos]
  constructor
  · rw [abs_sub_lt_iff]
    constructor
    · linarith
    · linarith
  · rw [hatan2, abs_sub_lt_iff]
    constructor
    · linarith
    · linarith

end Yantra

end
